import Mathlib

/-!
Shallow embedding of the confidential output pipeline
(`cosmwasm/enclaves/shared/contract-engine/src/io.rs`) and the EPID
attestation verifier (`cosmwasm/enclaves/shared/epid/src/types.rs`).

Byte strings are `List Nat` (each entry one byte).  External crates
(serde_json, sha2, AES-SIV, base64, the key manager) are not part of the
repository sources; they are modelled as explicit function parameters
gathered in a `Crypto` record, or as small executable definitions that are
marked `Modelled from the spec:` in their doc comments.
-/

/-- Byte strings: one `Nat` per byte. -/
abbrev Bytes := List Nat

/-- Bytes of a string, one byte per character.  All strings handled by the
claims are ASCII, where this agrees with UTF-8 encoding. -/
def strBytes (s : String) : Bytes := s.data.map Char.toNat

/-- Big-endian 8-byte encoding of a 64-bit integer (`u64::to_be_bytes`). -/
def be64 (n : Nat) : Bytes :=
  [n / 2 ^ 56 % 256, n / 2 ^ 48 % 256, n / 2 ^ 40 % 256, n / 2 ^ 32 % 256,
   n / 2 ^ 24 % 256, n / 2 ^ 16 % 256, n / 2 ^ 8 % 256, n % 256]

/-! ## JSON values (serde_json::Value) -/

mutual
/-- A serde_json `Value`.  Numbers that are not unsigned 64-bit integers
(floats, negatives out of range) are kept as their raw literal text in
`numRaw`, since the code only ever inspects numbers through `as_u64`. -/
inductive JValue where
  | null : JValue
  | jbool (b : Bool) : JValue
  | num (n : Int) : JValue
  | numRaw (lit : String) : JValue
  | str (s : String) : JValue
  | arr (xs : JList) : JValue
  | obj (fs : JFields) : JValue
deriving DecidableEq

/-- Elements of a JSON array. -/
inductive JList where
  | nil : JList
  | cons (hd : JValue) (tl : JList) : JList
deriving DecidableEq

/-- Fields of a JSON object, in serialization order. -/
inductive JFields where
  | nil : JFields
  | cons (key : String) (val : JValue) (tl : JFields) : JFields
deriving DecidableEq
end

/-- Hex digit character for a value below 16, lowercase as serde_json emits. -/
def hexDigitChar (n : Nat) : Char :=
  if n < 10 then Char.ofNat (48 + n) else Char.ofNat (97 + (n - 10))

/-- JSON escaping of one character, as serde_json does for strings. -/
def jsonEscapeChar (c : Char) : String :=
  if c = '"' then "\\\""
  else if c = '\\' then "\\\\"
  else if c = Char.ofNat 8 then "\\b"
  else if c = Char.ofNat 9 then "\\t"
  else if c = Char.ofNat 10 then "\\n"
  else if c = Char.ofNat 12 then "\\f"
  else if c = Char.ofNat 13 then "\\r"
  else if c.toNat < 32 then
    "\\u00" ++ String.mk [hexDigitChar (c.toNat / 16), hexDigitChar (c.toNat % 16)]
  else String.mk [c]

/-- JSON escaping of a string body. -/
def jsonEscape (cs : List Char) : String :=
  match cs with
  | [] => ""
  | c :: rest => jsonEscapeChar c ++ jsonEscape rest

mutual
/-- Compact JSON serialization, as `serde_json::to_string` produces. -/
def jsonSerial : JValue → String
  | .null => "null"
  | .jbool true => "true"
  | .jbool false => "false"
  | .num n => toString n
  | .numRaw lit => lit
  | .str s => "\"" ++ jsonEscape s.data ++ "\""
  | .arr xs => "[" ++ jsonSerialArr xs ++ "]"
  | .obj fs => "\x7b" ++ jsonSerialObj fs ++ "\x7d"

/-- Comma-separated serialization of array elements. -/
def jsonSerialArr : JList → String
  | .nil => ""
  | .cons x .nil => jsonSerial x
  | .cons x (.cons y tl) => jsonSerial x ++ "," ++ jsonSerialArr (.cons y tl)

/-- Comma-separated serialization of object fields. -/
def jsonSerialObj : JFields → String
  | .nil => ""
  | .cons k v .nil => "\"" ++ jsonEscape k.data ++ "\":" ++ jsonSerial v
  | .cons k v (.cons k2 v2 tl) =>
      "\"" ++ jsonEscape k.data ++ "\":" ++ jsonSerial v ++ "," ++
        jsonSerialObj (.cons k2 v2 tl)
end

/-- Field lookup in a JSON object's field list: first match wins. -/
def jFieldsGet (fs : JFields) (key : String) : Option JValue :=
  match fs with
  | .nil => none
  | .cons k v tl => if k = key then some v else jFieldsGet tl key

/-- serde_json `value.get(key)`: `Some` only when the value is an object
holding the key. -/
def jGet (v : JValue) (key : String) : Option JValue :=
  match v with
  | .obj fs => jFieldsGet fs key
  | _ => none

/-- serde_json `value[key]`: indexing that yields `Null` when the key is
absent or the value is not an object. -/
def jIndex (v : JValue) (key : String) : JValue :=
  (jGet v key).getD .null

/-- serde_json `Value::as_u64`: the number when it is an unsigned 64-bit
integer, `none` for non-numbers, floats and out-of-range values. -/
def jAsU64 (v : JValue) : Option Nat :=
  match v with
  | .num n => if 0 ≤ n ∧ n < 2 ^ 64 then some n.toNat else none
  | _ => none

/-- serde_json `Value::as_str`. -/
def jAsStr (v : JValue) : Option String :=
  match v with
  | .str s => some s
  | _ => none

/-- Behaviour of Rust's `trim_start_matches('"')` followed by
`trim_end_matches('"')`: strip every leading and trailing quote character. -/
def trimQuotes (s : String) : String :=
  String.mk (((s.data.dropWhile (· = '"')).reverse.dropWhile (· = '"')).reverse)

/-! ## Data model (cw_types_v010 / cw_types_v1, as used by io.rs) -/

/-- A coin: denomination plus amount (`cw_types_v010::types::Coin`; the
amount serializes as a decimal string). -/
structure Coin where
  denom : String
  amount : Nat
deriving DecidableEq, Repr

/-- Modelled from the spec: serde_json serialization of a funds list, a JSON
array of `{denom, amount}` objects with the amount as a string. -/
def serializeCoins (funds : List Coin) : Bytes :=
  strBytes (jsonSerial (.arr (funds.foldr
    (fun c acc => .cons (.obj (.cons "denom" (.str c.denom)
      (.cons "amount" (.str (toString c.amount)) .nil))) acc) .nil)))

/-- Modelled from the spec: `to_v010_coins` converts v1 coins to the
field-identical v0.10 coin representation. -/
def to_v010_coins (funds : List Coin) : List Coin := funds

/-- One entry of the ancestor reply-routing list
(`contract_validation::ReplyParams`). -/
structure ReplyParams where
  sub_msg_id : Nat
  recipient_contract_hash : Bytes
deriving DecidableEq, Repr

/-- Modelled from the spec: the fixed sentinel byte sequence
`cw_types_v1::results::REPLY_ENCRYPTION_MAGIC_BYTES` that marks a prepended
routing header.  Its concrete value lives outside the repository sources;
only its identity as one fixed constant matters to the claims. -/
def REPLY_ENCRYPTION_MAGIC_BYTES : Bytes := [82, 69, 80, 76, 89, 95, 77, 65, 71, 73, 67]

/-- Reply policy of a sub-message (`cw_types_v1::results::ReplyOn`). -/
inductive ReplyOn where
  | Never
  | Success
  | Error
  | Always
deriving DecidableEq, Repr

/-- A log attribute; `encrypted` marks it for field encryption
(`cw_types_v010::types::LogAttribute`). -/
structure LogAttribute where
  key : String
  value : String
  encrypted : Bool
deriving DecidableEq, Repr

/-- A custom event: a type tag plus attributes
(`cw_types_v1::results::Event`). -/
structure Event where
  ty : String
  attributes : List LogAttribute
deriving DecidableEq, Repr

/-- A v1 Wasm instruction, with the fields io.rs reads and writes
(`cw_types_v1::results::WasmMsg`). -/
inductive WasmMsg where
  | Execute (contract_addr : String) (code_hash : String) (msg : Bytes)
      (funds : List Coin) (callback_sig : Option Bytes)
  | Instantiate (code_id : Nat) (code_hash : String) (msg : Bytes)
      (funds : List Coin) (callback_sig : Option Bytes) (label : String)
deriving DecidableEq, Repr

/-- The payload bytes of a v1 Wasm instruction (its `msg` field). -/
def WasmMsg.msgBytes : WasmMsg → Bytes
  | .Execute _ _ msg _ _ => msg
  | .Instantiate _ _ msg _ _ _ => msg

/-- The recipient code hash of a v1 Wasm instruction. -/
def WasmMsg.codeHash : WasmMsg → String
  | .Execute _ code_hash _ _ _ => code_hash
  | .Instantiate _ code_hash _ _ _ _ => code_hash

/-- The funds attached to a v1 Wasm instruction. -/
def WasmMsg.fundsOf : WasmMsg → List Coin
  | .Execute _ _ _ funds _ => funds
  | .Instantiate _ _ _ funds _ _ => funds

/-- The callback signature slot of a v1 Wasm instruction. -/
def WasmMsg.callbackSig : WasmMsg → Option Bytes
  | .Execute _ _ _ _ callback_sig => callback_sig
  | .Instantiate _ _ _ _ callback_sig _ => callback_sig

/-- A v1 cosmos message: a Wasm instruction, or any non-Wasm instruction
(Bank, Staking, ...) kept opaque since the pipeline never touches those
(`cw_types_v1::results::CosmosMsg`). -/
inductive CosmosMsg where
  | Wasm (w : WasmMsg)
  | Other (raw : Bytes)
deriving DecidableEq, Repr

/-- A v1 sub-message (`cw_types_v1::results::SubMsg`). -/
structure SubMsg where
  id : Nat
  msg : CosmosMsg
  gas_limit : Option Nat
  reply_on : ReplyOn
  was_msg_encrypted : Bool
deriving DecidableEq, Repr

/-- A v1 contract response (`cw_types_v1::results::Response`). -/
structure Response where
  messages : List SubMsg
  attributes : List LogAttribute
  events : List Event
  data : Option Bytes
deriving DecidableEq, Repr

/-- An IBC packet-receive response (`cw_types_v1::ibc::IbcReceiveResponse`). -/
structure IbcReceiveResponse where
  acknowledgement : Bytes
  messages : List SubMsg
  attributes : List LogAttribute
  events : List Event
deriving DecidableEq, Repr

/-- An IBC basic response (`cw_types_v1::ibc::IbcBasicResponse`). -/
structure IbcBasicResponse where
  messages : List SubMsg
  attributes : List LogAttribute
  events : List Event
deriving DecidableEq, Repr

/-- The payload of an accepted IBC channel-open handshake
(`cw_types_v1::ibc::Ibc3ChannelOpenResponse`). -/
structure Ibc3ChannelOpenResponse where
  version : String
deriving DecidableEq, Repr

/-- A v0.10 Wasm instruction (`cw_types_v010::types::WasmMsg`). -/
inductive WasmMsgV010 where
  | Execute (contract_addr : String) (callback_code_hash : String) (msg : Bytes)
      (send : List Coin) (callback_sig : Option Bytes)
  | Instantiate (code_id : Nat) (callback_code_hash : String) (msg : Bytes)
      (send : List Coin) (callback_sig : Option Bytes) (label : String)
deriving DecidableEq, Repr

/-- A v0.10 cosmos message (`cw_types_v010::types::CosmosMsg`). -/
inductive CosmosMsgV010 where
  | Wasm (w : WasmMsgV010)
  | Other (raw : Bytes)
deriving DecidableEq, Repr

/-- A v0.10 contract result (`cw_types_v010::types::ContractResult`). -/
structure ContractResultV010 where
  messages : List CosmosMsgV010
  log : List LogAttribute
  data : Option Bytes
deriving DecidableEq, Repr

/-- The raw classified contract output (`RawWasmOutput` in io.rs). -/
inductive RawWasmOutput where
  | Err (err : JValue) (internal_msg_id : Option Bytes)
      (internal_reply_enclave_sig : Option Bytes)
  | QueryOkV010 (ok : String)
  | QueryOkV1 (ok : String)
  | OkV010 (ok : ContractResultV010) (internal_reply_enclave_sig : Option Bytes)
      (internal_msg_id : Option Bytes)
  | OkV1 (ok : Response) (internal_reply_enclave_sig : Option Bytes)
      (internal_msg_id : Option Bytes)
  | OkIBCPacketReceive (ok : IbcReceiveResponse)
  | OkIBCOpenChannel (ok : Option Ibc3ChannelOpenResponse)
deriving DecidableEq

/-- The v0.10 slot of the wire envelope (`V010WasmOutput`). -/
structure V010WasmOutput where
  ok : Option ContractResultV010
  err : Option JValue
deriving DecidableEq

/-- The v1 slot of the wire envelope (`V1WasmOutput`). -/
structure V1WasmOutput where
  ok : Option Response
  err : Option JValue
deriving DecidableEq

/-- The IBC basic slot of the wire envelope (`IBCOutput`). -/
structure IBCOutput where
  ok : Option IbcBasicResponse
  err : Option JValue
deriving DecidableEq

/-- The IBC packet-receive slot of the wire envelope (`IBCReceiveOutput`). -/
structure IBCReceiveOutput where
  ok : Option IbcReceiveResponse
  err : Option JValue
deriving DecidableEq

/-- The IBC open-channel slot of the wire envelope
(`IBCOpenChannelOutput`). -/
structure IBCOpenChannelOutput where
  ok : Option String
  err : Option JValue
deriving DecidableEq

/-- The query slot of the wire envelope (`QueryOutput`). -/
structure QueryOutput where
  ok : Option String
  err : Option JValue
deriving DecidableEq

/-- The wire envelope (`WasmOutput` in io.rs); the source JSON-serializes
this structure as the pipeline's final step. -/
structure WasmOutput where
  v010 : Option V010WasmOutput
  v1 : Option V1WasmOutput
  ibc_basic : Option IBCOutput
  ibc_packet_receive : Option IBCReceiveOutput
  ibc_open_channel : Option IBCOpenChannelOutput
  query : Option QueryOutput
  internal_reply_enclave_sig : Option Bytes
  internal_msg_id : Option Bytes
deriving DecidableEq

/-- An encrypted payload in transit (`SecretMessage`): nonce, sender's
ephemeral public key and the message bytes. -/
structure SecretMessage where
  nonce : Bytes
  user_public_key : Bytes
  msg : Bytes
deriving DecidableEq, Repr

/-- Modelled from the spec: the transport serialization of a
`SecretMessage` is nonce, then ephemeral public key, then message bytes
(`SecretMessage::to_vec`; each key component is 32 bytes). -/
def SecretMessage.to_vec (sm : SecretMessage) : Bytes :=
  sm.nonce ++ sm.user_public_key ++ sm.msg

/-- Errors raised by the pipeline (`enclave_ffi_types::EnclaveError`, the
variants io.rs raises). -/
inductive EnclaveError where
  | EncryptionError
  | FailedToSerialize
  | FailedToDeserialize
  | InternalError
deriving DecidableEq, Repr

/-- Modelled from the spec: parsing a `SecretMessage` back from transport
bytes (`SecretMessage::from_slice`): the first 32 bytes are the nonce, the
next 32 the ephemeral public key, the rest the message. -/
def SecretMessage.from_slice (s : Bytes) : Except EnclaveError SecretMessage :=
  if s.length < 64 then .error .FailedToDeserialize
  else .ok ⟨s.take 32, (s.drop 32).take 32, s.drop 64⟩

/-- Modelled from the spec: the external cryptographic capabilities and key
context the pipeline consumes (sha2 digest, AES-SIV, base64, the key
manager's derived per-call key and consensus callback secret).  The
primitive internals are outside the repository sources; theorems that need
inversion laws (decrypt after encrypt, decode after encode) state them as
hypotheses. -/
structure Crypto where
  digest : Bytes → Bytes
  deriveKey : Bytes → Bytes → Bytes
  encryptSiv : Bytes → Bytes → Bytes
  decryptSiv : Bytes → Bytes → Bytes
  b64encode : Bytes → String
  b64decode : String → Bytes
  callbackSecret : Bytes

/-! ## io.rs: the confidential output pipeline -/

/-- Replace the payload bytes of a v1 Wasm instruction. -/
def WasmMsg.withMsg : WasmMsg → Bytes → WasmMsg
  | .Execute a ch _ f cs, m => .Execute a ch m f cs
  | .Instantiate cid ch _ f cs l, m => .Instantiate cid ch m f cs l

/-- Replace the callback signature of a v1 Wasm instruction. -/
def WasmMsg.withCallbackSig : WasmMsg → Option Bytes → WasmMsg
  | .Execute a ch m f _, cs => .Execute a ch m f cs
  | .Instantiate cid ch m f _ l, cs => .Instantiate cid ch m f cs l

/-- The deterministic callback authentication tag
(`create_callback_signature` in io.rs):
digest(callback_secret ‖ msg_to_sign ‖ serialize(funds)).  The contract
address parameter is accepted but unused, exactly as in the source, where
the line appending it to the hashed bytes is commented out. -/
def create_callback_signature (c : Crypto) (_contract_addr : Bytes)
    (msg_to_sign : Bytes) (funds_to_send : List Coin) : Bytes :=
  c.digest (c.callbackSecret ++ msg_to_sign ++ serializeCoins funds_to_send)

/-- Encryption of an already-serialized string
(`encrypt_preserialized_string` in io.rs).  When reply parameters are
present, the plaintext is prefixed with the first entry's recipient
contract hash, and — when full propagation is requested — with
MAGIC ‖ be64(id) ‖ hash for every further entry.  The source indexes
`v[0]`, which panics on an empty vector; callers always pass a non-empty
list, so the `headD` default is unreachable there. -/
def encrypt_preserialized_string (c : Crypto) (key : Bytes) (val : String)
    (reply_params : Option (List ReplyParams))
    (should_append_all_reply_params : Bool) : String :=
  let serialized : Bytes :=
    match reply_params with
    | some v =>
        (v.headD ⟨0, []⟩).recipient_contract_hash
          ++ (if should_append_all_reply_params then
                (v.drop 1).flatMap fun item =>
                  REPLY_ENCRYPTION_MAGIC_BYTES ++ be64 item.sub_msg_id
                    ++ item.recipient_contract_hash
              else [])
          ++ strBytes val
    | none => strBytes val
  c.b64encode (c.encryptSiv key serialized)

/-- Encryption of a serializable value (`encrypt_serializable` in io.rs):
serialize to JSON, strip surrounding quote characters, then encrypt the
pre-serialized string.  `Binary` values serialize as their base64 string. -/
def encrypt_serializable (c : Crypto) (key : Bytes) (val : JValue)
    (reply_params : Option (List ReplyParams))
    (should_append_all_reply_params : Bool) : String :=
  encrypt_preserialized_string c key (trimQuotes (jsonSerial val))
    reply_params should_append_all_reply_params

/-- Modelled from the spec: in-place encryption of a `SecretMessage`
(`SecretMessage::encrypt_in_place`): the message bytes are replaced by
their AES-SIV encryption under the key derived from the nonce and the
sender's ephemeral public key. -/
def SecretMessage.encrypt_in_place (c : Crypto) (sm : SecretMessage) : SecretMessage :=
  { sm with msg := c.encryptSiv (c.deriveKey sm.nonce sm.user_public_key) sm.msg }

/-- Per-sub-message payload encryption (`encrypt_wasm_submsg` in io.rs):
Wasm instructions get their payload encrypted in transport form; all other
instructions (Bank, Staking, ...) are kept plaintext. -/
def encrypt_wasm_submsg (c : Crypto) (secret_msg : SecretMessage)
    (sub_msg : SubMsg) : SubMsg :=
  match sub_msg.msg with
  | .Wasm w =>
      let msg_to_encrypt : SecretMessage :=
        ⟨secret_msg.nonce, secret_msg.user_public_key, w.msgBytes⟩
      { sub_msg with
        msg := .Wasm (w.withMsg (msg_to_encrypt.encrypt_in_place c).to_vec) }
  | .Other _ => sub_msg

/-- Encryption of one log attribute when it is marked encrypted: its key
and value are independently encrypted (the per-attribute body of the loops
in `encrypt_v1_non_result_fields` and the v0.10 branch of
`encrypt_output`). -/
def encrypt_attribute (c : Crypto) (key : Bytes) (attr : LogAttribute) : LogAttribute :=
  if attr.encrypted then
    { attr with
      key := encrypt_preserialized_string c key attr.key none false,
      value := encrypt_preserialized_string c key attr.value none false }
  else attr

/-- Field encryption shared by v1 and IBC packet-receive outputs
(`encrypt_v1_non_result_fields` in io.rs): every sub-message goes through
`encrypt_wasm_submsg`; attributes and event attributes marked encrypted
have key and value encrypted. -/
def encrypt_v1_non_result_fields (c : Crypto) (messages : List SubMsg)
    (attributes : List LogAttribute) (events : List Event)
    (secret_msg : SecretMessage) :
    List SubMsg × List LogAttribute × List Event :=
  let encryption_key := c.deriveKey secret_msg.nonce secret_msg.user_public_key
  (messages.map (encrypt_wasm_submsg c secret_msg),
   attributes.map (encrypt_attribute c encryption_key),
   events.map fun ev =>
     { ev with attributes := ev.attributes.map (encrypt_attribute c encryption_key) })

/-- Encryption of a v0.10 Wasm instruction (`encrypt_v010_wasm_msg` in
io.rs): the payload is prefixed with the callback code hash, encrypted in
transport form, and a callback signature over the ciphertext and the sent
funds is attached. -/
def encrypt_v010_wasm_msg (c : Crypto) (w : WasmMsgV010) (nonce : Bytes)
    (user_public_key : Bytes) (contract_addr : Bytes) : WasmMsgV010 :=
  match w with
  | .Execute addr callback_code_hash msg send _ =>
      let hash_appended_msg := strBytes callback_code_hash ++ msg
      let msg_to_pass :=
        (SecretMessage.mk nonce user_public_key hash_appended_msg).encrypt_in_place c
      .Execute addr callback_code_hash msg_to_pass.to_vec send
        (some (create_callback_signature c contract_addr msg_to_pass.msg send))
  | .Instantiate cid callback_code_hash msg send _ label =>
      let hash_appended_msg := strBytes callback_code_hash ++ msg
      let msg_to_pass :=
        (SecretMessage.mk nonce user_public_key hash_appended_msg).encrypt_in_place c
      .Instantiate cid callback_code_hash msg_to_pass.to_vec send
        (some (create_callback_signature c contract_addr msg_to_pass.msg send)) label

/-- Selective encryption of the classified output (`encrypt_output` in
io.rs).  Err: the serialized error is encrypted and wrapped in a
generic_err object.  Query: the result string is encrypted in place.
OkV010 / OkV1 / IBC packet-receive: Wasm sub-message payloads, marked
attributes and the data / acknowledgement fields are encrypted; an IBC
output carrying data is an invariant violation.  IBC open-channel: no
encryption.  `Binary` fields serialize as base64 (the source re-decodes
them with `Binary::from_base64`, which cannot fail on freshly encoded
text). -/
def encrypt_output (c : Crypto) (output : RawWasmOutput)
    (secret_msg : SecretMessage) (contract_addr : Bytes)
    (reply_params : Option (List ReplyParams)) (is_ibc_output : Bool) :
    Except EnclaveError RawWasmOutput :=
  let encryption_key := c.deriveKey secret_msg.nonce secret_msg.user_public_key
  match output with
  | .Err err internal_msg_id internal_reply_enclave_sig =>
      let encrypted_err := encrypt_serializable c encryption_key err reply_params false
      .ok (.Err (.obj (.cons "generic_err"
            (.obj (.cons "msg" (.str encrypted_err) .nil)) .nil))
          internal_msg_id internal_reply_enclave_sig)
  | .QueryOkV010 ok =>
      .ok (.QueryOkV010 (encrypt_serializable c encryption_key (.str ok) reply_params false))
  | .QueryOkV1 ok =>
      .ok (.QueryOkV1 (encrypt_serializable c encryption_key (.str ok) reply_params false))
  | .OkV010 ok internal_reply_enclave_sig internal_msg_id =>
      let messages := ok.messages.map fun m =>
        match m with
        | .Wasm w => .Wasm (encrypt_v010_wasm_msg c w secret_msg.nonce
            secret_msg.user_public_key contract_addr)
        | .Other raw => .Other raw
      let log := ok.log.map (encrypt_attribute c encryption_key)
      let data := ok.data.map fun d =>
        c.b64decode (encrypt_serializable c encryption_key (.str (c.b64encode d))
          reply_params false)
      .ok (.OkV010 ⟨messages, log, data⟩ internal_reply_enclave_sig internal_msg_id)
  | .OkV1 ok internal_reply_enclave_sig internal_msg_id =>
      let (messages, attributes, events) :=
        encrypt_v1_non_result_fields c ok.messages ok.attributes ok.events secret_msg
      match ok.data with
      | some d =>
          if is_ibc_output then .error .InternalError
          else
            .ok (.OkV1 ⟨messages, attributes, events,
                some (c.b64decode (encrypt_serializable c encryption_key
                  (.str (c.b64encode d)) reply_params false))⟩
              internal_reply_enclave_sig internal_msg_id)
      | none =>
          .ok (.OkV1 ⟨messages, attributes, events, none⟩
            internal_reply_enclave_sig internal_msg_id)
  | .OkIBCPacketReceive ok =>
      let (messages, attributes, events) :=
        encrypt_v1_non_result_fields c ok.messages ok.attributes ok.events secret_msg
      .ok (.OkIBCPacketReceive
        ⟨c.b64decode (encrypt_serializable c encryption_key
            (.str (c.b64encode ok.acknowledgement)) reply_params false),
          messages, attributes, events⟩)
  | .OkIBCOpenChannel ok => .ok (.OkIBCOpenChannel ok)

/-- The sub-message list of an output, when its variant owns one
(`RawWasmOutput::submsgs_mut` in io.rs): `OkV1` and `OkIBCPacketReceive`. -/
def RawWasmOutput.submsgs : RawWasmOutput → Option (List SubMsg)
  | .OkV1 ok _ _ => some ok.messages
  | .OkIBCPacketReceive ok => some ok.messages
  | _ => none

/-- Write back a sub-message list through the mutable borrow
`submsgs_mut` hands out: only `OkV1` and `OkIBCPacketReceive` change. -/
def RawWasmOutput.withSubmsgs : RawWasmOutput → List SubMsg → RawWasmOutput
  | .OkV1 ok sig mid, msgs => .OkV1 { ok with messages := msgs } sig mid
  | .OkIBCPacketReceive ok, msgs => .OkIBCPacketReceive { ok with messages := msgs }
  | o, _ => o

/-- Reply-header embedding for one v1 Wasm instruction
(`attach_reply_headers_to_v1_wasm_msg` in io.rs): the payload becomes the
recipient code hash, an optional MAGIC ‖ be64(id) ‖ embedding-contract-hash
header when a reply is expected, one MAGIC ‖ be64(id) ‖ hash header per
ancestor reply parameter, then the original payload. -/
def attach_reply_headers_to_v1_wasm_msg (wasm_msg : WasmMsg) (reply_on : ReplyOn)
    (msg_id : Nat) (reply_recipient_contract_hash : String)
    (reply_params : Option (List ReplyParams)) : WasmMsg :=
  let hash_appended_msg :=
    strBytes wasm_msg.codeHash
      ++ (if reply_on ≠ ReplyOn.Never then
            REPLY_ENCRYPTION_MAGIC_BYTES ++ be64 msg_id
              ++ strBytes reply_recipient_contract_hash
          else [])
      ++ (match reply_params with
          | some r => r.flatMap fun param =>
              REPLY_ENCRYPTION_MAGIC_BYTES ++ be64 param.sub_msg_id
                ++ param.recipient_contract_hash
          | none => [])
      ++ wasm_msg.msgBytes
  wasm_msg.withMsg hash_appended_msg

/-- Reply-header embedding over a whole output
(`attach_reply_headers_to_submsgs` in io.rs): for variants owning
sub-messages, every Wasm sub-message gets its payload rewritten and its id
reset to 0, and every sub-message — Wasm or not — gets
`was_msg_encrypted` set. -/
def attach_reply_headers_to_submsgs (output : RawWasmOutput)
    (contract_hash : String) (reply_params : Option (List ReplyParams)) :
    RawWasmOutput :=
  match output.submsgs with
  | none => output
  | some sub_msgs =>
      output.withSubmsgs (sub_msgs.map fun sub_msg =>
        match sub_msg.msg with
        | .Wasm wasm_msg =>
            { sub_msg with
              msg := .Wasm (attach_reply_headers_to_v1_wasm_msg wasm_msg
                sub_msg.reply_on sub_msg.id contract_hash reply_params),
              id := 0,
              was_msg_encrypted := true }
        | .Other _ => { sub_msg with was_msg_encrypted := true })

/-- Callback-signature attachment for one sub-message (the loop body of
`create_callback_sig_for_submsgs` in io.rs): for a Wasm instruction, the
finalized payload is parsed back as a `SecretMessage` and the signature is
computed over its `msg` field — the ciphertext portion — plus the funds. -/
def callback_sig_one_submsg (c : Crypto) (contract_addr : Bytes)
    (sub_msg : SubMsg) : Except EnclaveError SubMsg :=
  match sub_msg.msg with
  | .Wasm w =>
      match SecretMessage.from_slice w.msgBytes with
      | .error e => .error e
      | .ok parsed =>
          .ok { sub_msg with
            msg := .Wasm (w.withCallbackSig (some (create_callback_signature c
              contract_addr parsed.msg (to_v010_coins w.fundsOf)))) }
  | .Other _ => .ok sub_msg

/-- The for loop of `create_callback_sig_for_submsgs`: each sub-message in
order, stopping at the first error (the source's `?` operator). -/
def callback_sig_submsgs_loop (c : Crypto) (contract_addr : Bytes) :
    List SubMsg → Except EnclaveError (List SubMsg)
  | [] => .ok []
  | sub_msg :: rest =>
      match callback_sig_one_submsg c contract_addr sub_msg with
      | .error e => .error e
      | .ok s2 =>
          match callback_sig_submsgs_loop c contract_addr rest with
          | .error e => .error e
          | .ok rest2 => .ok (s2 :: rest2)

/-- Callback-signature attachment over a whole output
(`create_callback_sig_for_submsgs` in io.rs). -/
def create_callback_sig_for_submsgs (c : Crypto) (output : RawWasmOutput)
    (contract_addr : Bytes) : Except EnclaveError RawWasmOutput :=
  match output with
  | .OkV1 ok sig mid =>
      match callback_sig_submsgs_loop c contract_addr ok.messages with
      | .error e => .error e
      | .ok msgs => .ok (.OkV1 { ok with messages := msgs } sig mid)
  | .OkIBCPacketReceive ok =>
      match callback_sig_submsgs_loop c contract_addr ok.messages with
      | .error e => .error e
      | .ok msgs => .ok (.OkIBCPacketReceive { ok with messages := msgs })
  | _ => .ok output

/-- A sub-message execution result carried in a Reply
(`cw_types_v1::results::SubMsgResponse`). -/
structure SubMsgResponse where
  events : List Event
  data : Option Bytes
deriving DecidableEq, Repr

/-- The Ok or Err projection of a sub-message result
(`cw_types_v1::results::SubMsgResult`). -/
inductive SubMsgResult where
  | Ok (resp : SubMsgResponse)
  | Err (e : String)
deriving DecidableEq, Repr

/-- The correlation object routed back to the ancestor contract's reply
entry point (`cw_types_v1::results::Reply`). -/
structure Reply where
  id : Bytes
  result : SubMsgResult
  was_orig_msg_encrypted : Bool
  is_encrypted : Bool
deriving DecidableEq, Repr

/-- JSON form of an event (its serde serialization shape). -/
def eventToJ (ev : Event) : JValue :=
  .obj (.cons "type" (.str ev.ty)
    (.cons "attributes" (.arr (ev.attributes.foldr
      (fun a acc => .cons (.obj (.cons "key" (.str a.key)
        (.cons "value" (.str a.value)
          (.cons "encrypted" (.jbool a.encrypted) .nil)))) acc) .nil)) .nil))

/-- Modelled from the spec: the serde_json serialization of a `Reply`
(`serde_json::to_vec(&reply)` in `get_reply_info_for_output`); binary
fields serialize as base64 strings, the result as a tagged ok / err
object. -/
def serialize_reply (c : Crypto) (r : Reply) : Bytes :=
  strBytes (jsonSerial (.obj (.cons "id" (.str (c.b64encode r.id))
    (.cons "result" (match r.result with
      | .Ok resp => .obj (.cons "ok" (.obj
          (.cons "events" (.arr (resp.events.foldr
            (fun ev acc => .cons (eventToJ ev) acc) .nil))
          (.cons "data" (match resp.data with
            | some d => .str (c.b64encode d)
            | none => .null) .nil))) .nil)
      | .Err e => .obj (.cons "err" (.str e) .nil))
    (.cons "was_orig_msg_encrypted" (.jbool r.was_orig_msg_encrypted)
    (.cons "is_encrypted" (.jbool r.is_encrypted) .nil))))))

/-- Reply correlation info for an adapted output
(`get_reply_info_for_output` in io.rs): encrypt the index-0 sub-message id
(with the reply-parameter prefix), build the Reply object, serialize it and
sign the serialization with `create_callback_signature` over empty funds.
The source unwraps `reply_params` and indexes entry 0, panicking otherwise;
callers guarantee a non-empty list, so the defaults are unreachable
there. -/
def get_reply_info_for_output (c : Crypto) (output_result : SubMsgResult)
    (reply_params : Option (List ReplyParams)) (encryption_key : Bytes)
    (sender_addr : Bytes) (should_append_all_reply_params : Bool) :
    Except EnclaveError (Bytes × Bytes) :=
  let encrypted_id := c.b64decode (encrypt_preserialized_string c encryption_key
    (toString ((reply_params.getD []).headD ⟨0, []⟩).sub_msg_id)
    reply_params should_append_all_reply_params)
  let reply : Reply :=
    { id := encrypted_id, result := output_result,
      was_orig_msg_encrypted := true, is_encrypted := true }
  let reply_json := serialize_reply c reply
  let sig := create_callback_signature c sender_addr reply_json []
  .ok (encrypted_id, sig)

/-- Reply adaptation (`adapt_output_for_reply` in io.rs): when this call
answers an ancestor (reply parameters present), project the result into a
SubMsgResult, compute the encrypted id and internal reply signature, and
attach both to the outer envelope fields of the Err / OkV010 / OkV1
variants; all other variants pass through unchanged. -/
def adapt_output_for_reply (c : Crypto) (output : RawWasmOutput)
    (reply_params : Option (List ReplyParams)) (secret_msg : SecretMessage)
    (sender_addr : Bytes) : Except EnclaveError RawWasmOutput :=
  match reply_params with
  | none => .ok output
  | some _ =>
      let encryption_key := c.deriveKey secret_msg.nonce secret_msg.user_public_key
      match output with
      | .Err err _ _ =>
          let msg_text := jsonSerial (jIndex (jIndex err "generic_err") "msg")
          let encrypted_error_message := String.mk (msg_text.data.dropLast.drop 1)
          (get_reply_info_for_output c (.Err encrypted_error_message) reply_params
            encryption_key sender_addr true).map fun (msg_id, callback_sig) =>
            .Err err (some msg_id) (some callback_sig)
      | .OkV010 ok _ _ =>
          (get_reply_info_for_output c (.Ok ⟨[], ok.data⟩) reply_params
            encryption_key sender_addr false).map fun (msg_id, callback_sig) =>
            .OkV010 ok (some callback_sig) (some msg_id)
      | .OkV1 ok _ _ =>
          (get_reply_info_for_output c (.Ok ⟨[], ok.data⟩) reply_params
            encryption_key sender_addr true).map fun (msg_id, callback_sig) =>
            .OkV1 ok (some callback_sig) (some msg_id)
      | other => .ok other

/-- The empty wire envelope every finalization starts from. -/
def WasmOutput.empty : WasmOutput :=
  ⟨none, none, none, none, none, none, none, none⟩

/-- Envelope construction (`finalize_raw_output` in io.rs): map the
processed output variant into exactly one slot of the wire envelope.  The
source then JSON-serializes the envelope; that serialization of this plain
record cannot fail and is not part of any claim. -/
def finalize_raw_output (raw_output : RawWasmOutput) (is_query_output : Bool)
    (is_ibc : Bool) (is_msg_encrypted : Bool) : WasmOutput :=
  match raw_output with
  | .Err err internal_msg_id internal_reply_enclave_sig =>
      if is_query_output then
        { WasmOutput.empty with query := some ⟨none, some err⟩ }
      else
        { WasmOutput.empty with
          v010 := some ⟨none, some (match is_msg_encrypted with
            | true => err
            | false => .obj (.cons "generic_err"
                (.obj (.cons "msg" err .nil)) .nil))⟩,
          internal_reply_enclave_sig := internal_reply_enclave_sig,
          internal_msg_id := internal_msg_id }
  | .OkV010 ok internal_reply_enclave_sig internal_msg_id =>
      { WasmOutput.empty with
        v010 := some ⟨some ok, none⟩,
        internal_reply_enclave_sig := internal_reply_enclave_sig,
        internal_msg_id := internal_msg_id }
  | .OkV1 ok internal_reply_enclave_sig internal_msg_id =>
      match is_ibc with
      | false =>
          { WasmOutput.empty with
            v1 := some ⟨some ok, none⟩,
            internal_reply_enclave_sig := internal_reply_enclave_sig,
            internal_msg_id := internal_msg_id }
      | true =>
          { WasmOutput.empty with
            ibc_basic := some ⟨some ⟨ok.messages, ok.attributes, ok.events⟩, none⟩,
            internal_reply_enclave_sig := internal_reply_enclave_sig,
            internal_msg_id := internal_msg_id }
  | .QueryOkV010 ok => { WasmOutput.empty with query := some ⟨some ok, none⟩ }
  | .QueryOkV1 ok => { WasmOutput.empty with query := some ⟨some ok, none⟩ }
  | .OkIBCPacketReceive ok =>
      { WasmOutput.empty with ibc_packet_receive := some ⟨some ok, none⟩ }
  | .OkIBCOpenChannel ok =>
      { WasmOutput.empty with
        ibc_open_channel := some ⟨some (match ok with
          | some o => o.version
          | none => ""), none⟩ }

/-- The whole pipeline (`post_process_output` in io.rs), starting from the
already-classified output (the byte-level JSON shape dispatch of
`deserialize_output` is serde parsing, external to this embedding):
header embedding, field encryption, callback signatures, reply adaptation,
envelope construction. -/
def post_process_output (c : Crypto) (raw : RawWasmOutput)
    (secret_msg : SecretMessage) (contract_addr : Bytes)
    (contract_hash : String) (reply_params : Option (List ReplyParams))
    (sender_addr : Bytes) (is_query_output : Bool) (is_ibc_output : Bool) :
    Except EnclaveError WasmOutput := do
  let r1 := attach_reply_headers_to_submsgs raw contract_hash reply_params
  let r2 ← encrypt_output c r1 secret_msg contract_addr reply_params is_ibc_output
  let r3 ← create_callback_sig_for_submsgs c r2 contract_addr
  let r4 ← adapt_output_for_reply c r3 reply_params secret_msg sender_addr
  .ok (finalize_raw_output r4 is_query_output is_ibc_output true)

/-! ## epid/types.rs: the attestation verifier -/

/-- Modelled from the spec: the quote status reported by the attestation
service (`attestation::sgx_quote::SgxQuoteStatus`).  The named
constructors are the statuses the two policies distinguish; every other
status string maps to `Other`. -/
inductive SgxQuoteStatus where
  | OK
  | SwHardeningNeeded
  | ConfigurationAndSwHardeningNeeded
  | GroupOutOfDate
  | ConfigurationNeeded
  | GroupRevoked
  | SignatureInvalid
  | Other (status_string : String)
deriving DecidableEq, Repr

/-- Modelled from the spec: mapping a quote status string to its status
(`SgxQuoteStatus::from`); unrecognized strings map to `Other`. -/
def SgxQuoteStatus.fromString (s : String) : SgxQuoteStatus :=
  if s = "OK" then .OK
  else if s = "SW_HARDENING_NEEDED" then .SwHardeningNeeded
  else if s = "CONFIGURATION_AND_SW_HARDENING_NEEDED" then
    .ConfigurationAndSwHardeningNeeded
  else if s = "GROUP_OUT_OF_DATE" then .GroupOutOfDate
  else if s = "CONFIGURATION_NEEDED" then .ConfigurationNeeded
  else if s = "GROUP_REVOKED" then .GroupRevoked
  else if s = "SIGNATURE_INVALID" then .SignatureInvalid
  else .Other s

/-- Modelled from the spec: the verifier's verdict codes
(`enclave_ffi_types::NodeAuthResult`). -/
inductive NodeAuthResult where
  | Success
  | GroupOutOfDate
  | SwHardeningNeeded
  | ConfigurationAndSwHardeningNeeded
  | BadQuoteStatus
deriving DecidableEq, Repr

/-- Modelled from the spec: the rejection code derived from a bad quote
status (`NodeAuthResult::from(&SgxQuoteStatus)`). -/
def nodeAuthFromStatus (s : SgxQuoteStatus) : NodeAuthResult :=
  match s with
  | .GroupOutOfDate => .GroupOutOfDate
  | _ => .BadQuoteStatus

/-- Errors of attestation report validation, as raised by
`ValidatedEpidAttestation::from_endorsed_report`
(`secret_attestation_token::Error`): a report field is missing or
malformed, or the binary quote body does not parse. -/
inductive AttnError where
  | ReportParseError
  | QuoteParseError
deriving DecidableEq, Repr

/-- The parsed binary quote body (`crate::epid_quote::EpidSgxQuote`); its
internals live outside the repository sources and no claim inspects them,
so it stays opaque. -/
structure EpidSgxQuote where
  raw : Bytes
deriving DecidableEq, Repr

/-- A validated attestation (`ValidatedEpidAttestation` in
epid/types.rs): quote status, parsed quote body, optional platform info
blob and advisory id list. -/
structure ValidatedEpidAttestation where
  sgx_quote_status : SgxQuoteStatus
  sgx_quote_body : EpidSgxQuote
  platform_info_blob : Option Bytes
  advisory_ids : List String
deriving DecidableEq, Repr

/-- Collect the elements of a JSON array when every element is a string
(serde_json `from_value::<Vec<String>>`). -/
def jStringArray : JList → Option (List String)
  | .nil => some []
  | .cons (.str s) tl => (jStringArray tl).map fun rest => s :: rest
  | .cons _ _ => none

/-- serde_json deserialization of a `Vec<String>` from a JSON value. -/
def jAsStringList (v : JValue) : Option (List String) :=
  match v with
  | .arr xs => jStringArray xs
  | _ => none

/-- Report parsing and validation
(`ValidatedEpidAttestation::from_endorsed_report` in epid/types.rs),
starting from the parsed report JSON (the text-to-JSON step is serde
parsing, external to this embedding).  The binary quote parser, hex
decoder and base64 decoder are external primitives passed in as
functions.  The version must be exactly 4; the platform info blob is
optional hex; status and quote body are required; advisory ids default to
the empty list. -/
def from_endorsed_report (parseQuote : Bytes → Except AttnError EpidSgxQuote)
    (hexDecode : String → Option Bytes) (b64Decode : String → Option Bytes)
    (attn_report : JValue) : Except AttnError ValidatedEpidAttestation :=
  match jAsU64 (jIndex attn_report "version") with
  | none => .error .ReportParseError
  | some version =>
    if version ≠ 4 then .error .ReportParseError
    else
      let pibStep : Except AttnError (Option Bytes) :=
        match jAsStr (jIndex attn_report "platformInfoBlob") with
        | some blob =>
            match hexDecode blob with
            | some as_binary => .ok (some as_binary)
            | none => .error .ReportParseError
        | none => .ok none
      do
        let platform_info_blob ← pibStep
        let status_string ←
          match jAsStr (jIndex attn_report "isvEnclaveQuoteStatus") with
          | some s => Except.ok s
          | none => Except.error AttnError.ReportParseError
        let sgx_quote_status := SgxQuoteStatus.fromString status_string
        let quote_encoded ←
          match jAsStr (jIndex attn_report "isvEnclaveQuoteBody") with
          | some s => Except.ok s
          | none => Except.error AttnError.ReportParseError
        let quote_raw ←
          match b64Decode quote_encoded with
          | some b => Except.ok b
          | none => Except.error AttnError.ReportParseError
        let sgx_quote_body ← parseQuote quote_raw
        let advisories ←
          match jGet attn_report "advisoryIDs" with
          | some raw =>
              match jAsStringList raw with
              | some l => Except.ok l
              | none => Except.error AttnError.ReportParseError
          | none => Except.ok ([] : List String)
        .ok ⟨sgx_quote_status, sgx_quote_body, platform_info_blob, advisories⟩

/-- The advisory-allowlist check (`attestation::sgx_quote::check_advisories`)
is an external collaborator; the policy functions take it as a parameter. -/
abbrev CheckAdvisories := SgxQuoteStatus → List String → Except NodeAuthResult Unit

/-- Strict (production) quote-status policy (`_verify_quote_status` in
epid/types.rs): accept only OK, SwHardeningNeeded and
ConfigurationAndSwHardeningNeeded, and only when the advisory check
passes; reject everything else with the status-derived code. -/
def verify_quote_status_strict (check_advisories : CheckAdvisories)
    (report : ValidatedEpidAttestation) : Except NodeAuthResult NodeAuthResult :=
  match report.sgx_quote_status with
  | .OK | .SwHardeningNeeded | .ConfigurationAndSwHardeningNeeded => do
      check_advisories report.sgx_quote_status report.advisory_ids
      .ok .Success
  | s => .error (nodeAuthFromStatus s)

/-- Lenient (non-production) quote-status policy (`verify_quote_status` in
epid/types.rs): additionally accept GroupOutOfDate, and downgrade an
advisory-check failure on an otherwise-accepted status to a warning — the
failing code is returned inside `ok`. -/
def verify_quote_status (check_advisories : CheckAdvisories)
    (report : ValidatedEpidAttestation) : Except NodeAuthResult NodeAuthResult :=
  match report.sgx_quote_status with
  | .OK | .SwHardeningNeeded | .ConfigurationAndSwHardeningNeeded
  | .GroupOutOfDate =>
      match check_advisories report.sgx_quote_status report.advisory_ids with
      | .error results => .ok results
      | .ok _ => .ok .Success
  | s => .error (nodeAuthFromStatus s)

/-! ## Concrete instantiation of the external primitives for closed
witness statements -/

/-- A concrete `Crypto` used by closed witnesses and counterexamples:
identity-style encryption, a byte-per-character base64 stand-in and an
identity digest.  The inversion laws the theorems hypothesize hold at
every concrete byte value a witness uses. -/
def idCrypto : Crypto where
  digest := fun b => b
  deriveKey := fun n pk => n ++ pk
  encryptSiv := fun _ m => m
  decryptSiv := fun _ m => m
  b64encode := fun b => String.mk (b.map Char.ofNat)
  b64decode := fun s => s.data.map Char.toNat
  callbackSecret := [9, 9]

/-! ## C9: the callback signature ignores the sender address -/

/-- C9: the callback signature is independent of the sending contract's
address: for any two contract addresses and fixed message bytes and funds,
`create_callback_signature` returns the same tag (the address parameter has
no effect on the output). -/
theorem create_callback_signature_addr_independent (c : Crypto)
    (addr1 addr2 : Bytes) (msg : Bytes) (funds : List Coin) :
    create_callback_signature c addr1 msg funds =
      create_callback_signature c addr2 msg funds := rfl

/-! ## C6: exactly one envelope variant -/

/-- How many of the six top-level result slots of the envelope are
non-null. -/
def WasmOutput.variantCount (w : WasmOutput) : Nat :=
  (if w.v010.isSome then 1 else 0) + (if w.v1.isSome then 1 else 0)
    + (if w.ibc_basic.isSome then 1 else 0)
    + (if w.ibc_packet_receive.isSome then 1 else 0)
    + (if w.ibc_open_channel.isSome then 1 else 0)
    + (if w.query.isSome then 1 else 0)

/-- C6: for every output variant and every combination of the
`is_query_output`, `is_ibc` and `is_msg_encrypted` flags,
`finalize_raw_output` produces an envelope in which exactly one of the six
top-level result fields is non-null. -/
theorem finalize_raw_output_exactly_one_variant (raw : RawWasmOutput)
    (is_query_output is_ibc is_msg_encrypted : Bool) :
    (finalize_raw_output raw is_query_output is_ibc is_msg_encrypted).variantCount = 1 := by
  cases raw <;> cases is_query_output <;> cases is_ibc <;> cases is_msg_encrypted <;> rfl

/-! ## C4: the attestation version gate -/

/-- C4: for every parsed report JSON whose version field is absent, not an
unsigned integer, or any number other than exactly 4, constructing a
validated attestation fails with `ReportParseError`, for every choice of
the external quote parser, hex decoder and base64 decoder — so
independently of everything else in the report. -/
theorem from_endorsed_report_version_gate
    (parseQuote : Bytes → Except AttnError EpidSgxQuote)
    (hexDecode b64Decode : String → Option Bytes) (attn_report : JValue)
    (h : jAsU64 (jIndex attn_report "version") ≠ some 4) :
    from_endorsed_report parseQuote hexDecode b64Decode attn_report =
      .error .ReportParseError := by
  unfold from_endorsed_report
  cases hv : jAsU64 (jIndex attn_report "version") with
  | none => rfl
  | some v =>
      have hne : v ≠ 4 := fun hv4 => h (hv4 ▸ hv)
      simp [hne]

/-- C4 witness: a report whose version field is 3 is rejected with
`ReportParseError`. -/
theorem from_endorsed_report_version_gate_witness :
    jAsU64 (jIndex (JValue.obj (.cons "version" (.num 3) .nil)) "version") ≠ some 4
    ∧ from_endorsed_report (fun _ => .error .QuoteParseError) (fun _ => none)
        (fun _ => none) (JValue.obj (.cons "version" (.num 3) .nil)) =
        .error .ReportParseError :=
  ⟨by decide,
   from_endorsed_report_version_gate (fun _ => .error .QuoteParseError)
     (fun _ => none) (fun _ => none) (JValue.obj (.cons "version" (.num 3) .nil))
     (by decide)⟩

/-! ## C5: the quote-status policies -/

/-- C5: a GROUP_OUT_OF_DATE quote status is rejected under the strict
(production) policy and accepted (possibly as a downgraded warning code)
under the lenient (non-production) policy, for every advisory check and
report contents; and every status string outside the recognized accepted
set is rejected under both policies. -/
theorem verify_quote_status_policy (check_advisories : CheckAdvisories)
    (q : EpidSgxQuote) (pib : Option Bytes) (adv : List String) (s : String) :
    (∃ e, verify_quote_status_strict check_advisories
        ⟨SgxQuoteStatus.fromString "GROUP_OUT_OF_DATE", q, pib, adv⟩ = .error e)
    ∧ (∃ r, verify_quote_status check_advisories
        ⟨SgxQuoteStatus.fromString "GROUP_OUT_OF_DATE", q, pib, adv⟩ = .ok r)
    ∧ (SgxQuoteStatus.fromString s ∉
          [SgxQuoteStatus.OK, SgxQuoteStatus.SwHardeningNeeded,
           SgxQuoteStatus.ConfigurationAndSwHardeningNeeded,
           SgxQuoteStatus.GroupOutOfDate] →
        (∃ e, verify_quote_status_strict check_advisories
            ⟨SgxQuoteStatus.fromString s, q, pib, adv⟩ = .error e)
        ∧ (∃ e, verify_quote_status check_advisories
            ⟨SgxQuoteStatus.fromString s, q, pib, adv⟩ = .error e)) := by
  have hG : SgxQuoteStatus.fromString "GROUP_OUT_OF_DATE" = .GroupOutOfDate := by decide
  refine ⟨⟨nodeAuthFromStatus .GroupOutOfDate, by rw [hG]; rfl⟩, ?_, ?_⟩
  · rw [hG]
    cases hca : check_advisories .GroupOutOfDate adv with
    | error r => exact ⟨r, by simp [verify_quote_status, hca]⟩
    | ok u => exact ⟨.Success, by simp [verify_quote_status, hca]⟩
  · intro hnot
    cases hfs : SgxQuoteStatus.fromString s
    case OK => rw [hfs] at hnot; exact absurd (by decide) hnot
    case SwHardeningNeeded => rw [hfs] at hnot; exact absurd (by decide) hnot
    case ConfigurationAndSwHardeningNeeded => rw [hfs] at hnot; exact absurd (by decide) hnot
    case GroupOutOfDate => rw [hfs] at hnot; exact absurd (by decide) hnot
    case ConfigurationNeeded => exact ⟨⟨_, rfl⟩, ⟨_, rfl⟩⟩
    case GroupRevoked => exact ⟨⟨_, rfl⟩, ⟨_, rfl⟩⟩
    case SignatureInvalid => exact ⟨⟨_, rfl⟩, ⟨_, rfl⟩⟩
    case Other st => exact ⟨⟨_, rfl⟩, ⟨_, rfl⟩⟩

/-! ## C3 and C10: the reply-header embedding stage -/

/-- C3: for every sub-message of an output owning sub-messages whose target
is a Wasm contract, the header embedder rewrites its payload to the
recipient code-hash bytes, then — only when `reply_on` is not Never —
MAGIC ‖ be64(sub_msg_id) ‖ the embedding contract's hash bytes, then one
MAGIC ‖ be64(id) ‖ hash block per `ReplyParams` entry in order, then the
original payload bytes; and the sub-message's id is reset to 0 (its
`was_msg_encrypted` flag is also set). -/
theorem attach_reply_headers_payload_format (output : RawWasmOutput)
    (contract_hash : String) (reply_params : Option (List ReplyParams))
    (sub_msgs : List SubMsg) (i : Nat) (w : WasmMsg)
    (hs : output.submsgs = some sub_msgs) (hi : i < sub_msgs.length)
    (hw : (sub_msgs.get ⟨i, hi⟩).msg = .Wasm w) :
    ((attach_reply_headers_to_submsgs output contract_hash reply_params).submsgs.getD []).get? i
      = some { sub_msgs.get ⟨i, hi⟩ with
               id := 0,
               was_msg_encrypted := true,
               msg := .Wasm (w.withMsg (
                 strBytes w.codeHash
                 ++ (if (sub_msgs.get ⟨i, hi⟩).reply_on ≠ ReplyOn.Never then
                       REPLY_ENCRYPTION_MAGIC_BYTES ++ be64 (sub_msgs.get ⟨i, hi⟩).id
                         ++ strBytes contract_hash
                     else [])
                 ++ (match reply_params with
                     | some r => r.flatMap fun param =>
                         REPLY_ENCRYPTION_MAGIC_BYTES ++ be64 param.sub_msg_id
                           ++ param.recipient_contract_hash
                     | none => [])
                 ++ w.msgBytes)) } := by
  cases output with
  | OkV1 ok sig mid =>
      simp only [RawWasmOutput.submsgs, Option.some.injEq] at hs
      subst hs
      simp only [attach_reply_headers_to_submsgs, RawWasmOutput.submsgs,
        RawWasmOutput.withSubmsgs, Option.getD_some, List.get?_map,
        List.get?_eq_get hi, Option.map_some']
      rw [hw]
      rfl
  | OkIBCPacketReceive ok =>
      simp only [RawWasmOutput.submsgs, Option.some.injEq] at hs
      subst hs
      simp only [attach_reply_headers_to_submsgs, RawWasmOutput.submsgs,
        RawWasmOutput.withSubmsgs, Option.getD_some, List.get?_map,
        List.get?_eq_get hi, Option.map_some']
      rw [hw]
      rfl
  | Err e a b => exact absurd hs (by simp [RawWasmOutput.submsgs])
  | QueryOkV010 ok => exact absurd hs (by simp [RawWasmOutput.submsgs])
  | QueryOkV1 ok => exact absurd hs (by simp [RawWasmOutput.submsgs])
  | OkV010 ok a b => exact absurd hs (by simp [RawWasmOutput.submsgs])
  | OkIBCOpenChannel ok => exact absurd hs (by simp [RawWasmOutput.submsgs])

/-- A concrete v1 output with one Wasm sub-message (id 5, payload [1, 2],
reply on success), used by the C3 witness. -/
def c3out : RawWasmOutput :=
  .OkV1 ⟨[⟨5, .Wasm (.Execute "a" "ch" [1, 2] [] none), none, .Success, false⟩],
    [], [], none⟩ none none

/-- C3 witness: on the concrete output, with one ancestor reply parameter,
the embedded payload is code hash ‖ MAGIC ‖ be64(5) ‖ embedder hash ‖
MAGIC ‖ be64(3) ‖ ancestor hash ‖ original payload, and the id is reset. -/
theorem attach_reply_headers_payload_format_witness :
    ((attach_reply_headers_to_submsgs c3out "h"
        (some [⟨3, [7, 8]⟩])).submsgs.getD []).get? 0
      = some { id := 0,
               msg := .Wasm (.Execute "a" "ch"
                 (strBytes "ch"
                   ++ (REPLY_ENCRYPTION_MAGIC_BYTES ++ be64 5 ++ strBytes "h")
                   ++ (REPLY_ENCRYPTION_MAGIC_BYTES ++ be64 3 ++ [7, 8] ++ [])
                   ++ [1, 2]) [] none),
               gas_limit := none, reply_on := .Success, was_msg_encrypted := true } :=
  attach_reply_headers_payload_format c3out "h" (some [⟨3, [7, 8]⟩])
    [⟨5, .Wasm (.Execute "a" "ch" [1, 2] [] none), none, .Success, false⟩]
    0 (.Execute "a" "ch" [1, 2] [] none) rfl (by decide) rfl

/-- C10: after the reply-header-embedding stage, every sub-message of an
output owning sub-messages has `was_msg_encrypted` set to true — including
sub-messages carrying non-Wasm instructions — while the id field is reset
to 0 only for Wasm-targeted sub-messages and is kept for the others. -/
theorem attach_reply_headers_flags (output : RawWasmOutput)
    (contract_hash : String) (reply_params : Option (List ReplyParams))
    (sub_msgs : List SubMsg) (i : Nat)
    (hs : output.submsgs = some sub_msgs) (hi : i < sub_msgs.length) :
    (((attach_reply_headers_to_submsgs output contract_hash reply_params).submsgs.getD []).get? i).map
        (fun s => (s.was_msg_encrypted, s.id))
      = some (true, match (sub_msgs.get ⟨i, hi⟩).msg with
          | .Wasm _ => 0
          | .Other _ => (sub_msgs.get ⟨i, hi⟩).id) := by
  cases output with
  | OkV1 ok sig mid =>
      simp only [RawWasmOutput.submsgs, Option.some.injEq] at hs
      subst hs
      simp only [attach_reply_headers_to_submsgs, RawWasmOutput.submsgs,
        RawWasmOutput.withSubmsgs, Option.getD_some, List.get?_map,
        List.get?_eq_get hi, Option.map_some']
      cases hmsg : (ok.messages.get ⟨i, hi⟩).msg with
      | Wasm w => rfl
      | Other raw => rfl
  | OkIBCPacketReceive ok =>
      simp only [RawWasmOutput.submsgs, Option.some.injEq] at hs
      subst hs
      simp only [attach_reply_headers_to_submsgs, RawWasmOutput.submsgs,
        RawWasmOutput.withSubmsgs, Option.getD_some, List.get?_map,
        List.get?_eq_get hi, Option.map_some']
      cases hmsg : (ok.messages.get ⟨i, hi⟩).msg with
      | Wasm w => rfl
      | Other raw => rfl
  | Err e a b => exact absurd hs (by simp [RawWasmOutput.submsgs])
  | QueryOkV010 ok => exact absurd hs (by simp [RawWasmOutput.submsgs])
  | QueryOkV1 ok => exact absurd hs (by simp [RawWasmOutput.submsgs])
  | OkV010 ok a b => exact absurd hs (by simp [RawWasmOutput.submsgs])
  | OkIBCOpenChannel ok => exact absurd hs (by simp [RawWasmOutput.submsgs])

/-- A concrete IBC packet-receive output with one non-Wasm sub-message of
id 7, used by the C10 witness. -/
def c10out : RawWasmOutput :=
  .OkIBCPacketReceive ⟨[10], [⟨7, .Other [4], none, .Never, false⟩], [], []⟩

/-- C10 witness: on the concrete output, the non-Wasm sub-message comes out
with `was_msg_encrypted` true and its id 7 untouched. -/
theorem attach_reply_headers_flags_witness :
    (((attach_reply_headers_to_submsgs c10out "h" none).submsgs.getD []).get? 0).map
        (fun s => (s.was_msg_encrypted, s.id))
      = some (true, 7) :=
  attach_reply_headers_flags c10out "h" none
    [⟨7, .Other [4], none, .Never, false⟩] 0 rfl (by decide)

/-! ## C8: encrypt_output leaves non-policy fields untouched -/

/-- The attribute list of an output, when its variant owns one. -/
def RawWasmOutput.attrsOf : RawWasmOutput → Option (List LogAttribute)
  | .OkV1 ok _ _ => some ok.attributes
  | .OkIBCPacketReceive ok => some ok.attributes
  | _ => none

/-- The event list of an output, when its variant owns one. -/
def RawWasmOutput.eventsOf : RawWasmOutput → Option (List Event)
  | .OkV1 ok _ _ => some ok.events
  | .OkIBCPacketReceive ok => some ok.events
  | _ => none

/-- C8: for every Ok v1 and IBC packet-receive output, `encrypt_output`
leaves byte-identical every sub-message whose instruction is not a Wasm
message and every log / event attribute whose encrypted flag is false; the
event type tags are preserved too. -/
theorem encrypt_output_frame (c : Crypto) (output out2 : RawWasmOutput)
    (secret_msg : SecretMessage) (contract_addr : Bytes)
    (reply_params : Option (List ReplyParams)) (is_ibc_output : Bool)
    (sub_msgs : List SubMsg)
    (hs : output.submsgs = some sub_msgs)
    (henc : encrypt_output c output secret_msg contract_addr reply_params
      is_ibc_output = .ok out2) :
    (∀ i s raw, sub_msgs.get? i = some s → s.msg = .Other raw →
        (out2.submsgs.getD []).get? i = some s)
    ∧ (∀ i a, (output.attrsOf.getD []).get? i = some a → a.encrypted = false →
        (out2.attrsOf.getD []).get? i = some a)
    ∧ (∀ i ev, (output.eventsOf.getD []).get? i = some ev →
        ∃ ev2, (out2.eventsOf.getD []).get? i = some ev2 ∧ ev2.ty = ev.ty ∧
          ∀ j a, ev.attributes.get? j = some a → a.encrypted = false →
            ev2.attributes.get? j = some a) := by
  cases output with
  | OkV1 ok sig mid =>
      simp only [RawWasmOutput.submsgs, Option.some.injEq] at hs
      subst hs
      simp only [encrypt_output, encrypt_v1_non_result_fields] at henc
      have hout2 : ∃ d2, out2 = .OkV1
          ⟨ok.messages.map (encrypt_wasm_submsg c secret_msg),
           ok.attributes.map (encrypt_attribute c (c.deriveKey secret_msg.nonce secret_msg.user_public_key)),
           ok.events.map (fun ev => { ev with attributes := ev.attributes.map (encrypt_attribute c (c.deriveKey secret_msg.nonce secret_msg.user_public_key)) }),
           d2⟩ sig mid := by
        cases hd : ok.data with
        | none =>
            rw [hd] at henc
            exact ⟨none, (Except.ok.inj henc).symm⟩
        | some d =>
            cases hibc : is_ibc_output with
            | true =>
                rw [hd, hibc] at henc
                simp at henc
            | false =>
                rw [hd, hibc] at henc
                simp only [Bool.false_eq_true, if_false] at henc
                exact ⟨_, (Except.ok.inj henc).symm⟩
      obtain ⟨d2, rfl⟩ := hout2
      refine ⟨?_, ?_, ?_⟩
      · intro i s raw hget hmsg
        simp only [RawWasmOutput.submsgs, Option.getD_some, List.get?_map, hget,
          Option.map_some']
        simp [encrypt_wasm_submsg, hmsg]
      · intro i a hget ha
        simp only [RawWasmOutput.attrsOf, Option.getD_some] at hget ⊢
        simp only [List.get?_map, hget, Option.map_some']
        simp [encrypt_attribute, ha]
      · intro i ev hget
        simp only [RawWasmOutput.eventsOf, Option.getD_some] at hget ⊢
        refine ⟨{ ev with attributes := ev.attributes.map (encrypt_attribute c (c.deriveKey secret_msg.nonce secret_msg.user_public_key)) }, ?_, rfl, ?_⟩
        · simp only [List.get?_map, hget, Option.map_some']
        · intro j a hj ha
          simp only [List.get?_map, hj, Option.map_some']
          simp [encrypt_attribute, ha]
  | OkIBCPacketReceive ok =>
      simp only [RawWasmOutput.submsgs, Option.some.injEq] at hs
      subst hs
      simp only [encrypt_output, encrypt_v1_non_result_fields,
        Except.ok.injEq] at henc
      subst henc
      refine ⟨?_, ?_, ?_⟩
      · intro i s raw hget hmsg
        simp only [RawWasmOutput.submsgs, Option.getD_some, List.get?_map, hget,
          Option.map_some']
        simp [encrypt_wasm_submsg, hmsg]
      · intro i a hget ha
        simp only [RawWasmOutput.attrsOf, Option.getD_some] at hget ⊢
        simp only [List.get?_map, hget, Option.map_some']
        simp [encrypt_attribute, ha]
      · intro i ev hget
        simp only [RawWasmOutput.eventsOf, Option.getD_some] at hget ⊢
        refine ⟨{ ev with attributes := ev.attributes.map (encrypt_attribute c (c.deriveKey secret_msg.nonce secret_msg.user_public_key)) }, ?_, rfl, ?_⟩
        · simp only [List.get?_map, hget, Option.map_some']
        · intro j a hj ha
          simp only [List.get?_map, hj, Option.map_some']
          simp [encrypt_attribute, ha]
  | Err e a b => exact absurd hs (by simp [RawWasmOutput.submsgs])
  | QueryOkV010 ok => exact absurd hs (by simp [RawWasmOutput.submsgs])
  | QueryOkV1 ok => exact absurd hs (by simp [RawWasmOutput.submsgs])
  | OkV010 ok a b => exact absurd hs (by simp [RawWasmOutput.submsgs])
  | OkIBCOpenChannel ok => exact absurd hs (by simp [RawWasmOutput.submsgs])

/-- The sub-message list of the concrete C8 witness output: one non-Wasm
instruction. -/
def c8msgs : List SubMsg := [⟨1, .Other [3], none, .Never, false⟩]

/-- A concrete v1 output with a non-Wasm sub-message, one plaintext
attribute and one event with a plaintext attribute, used by the C8
witness. -/
def c8out : RawWasmOutput :=
  .OkV1 ⟨c8msgs, [⟨"k", "v", false⟩], [⟨"e", [⟨"k2", "v2", false⟩]⟩], none⟩ none none

/-- C8 witness: on the concrete output nothing falls under the encryption
policy, and encrypt_output returns every sub-message, attribute and event
attribute byte-identical. -/
theorem encrypt_output_frame_witness :
    (∀ i s raw, c8msgs.get? i = some s → s.msg = .Other raw →
        (c8out.submsgs.getD []).get? i = some s)
    ∧ (∀ i a, (c8out.attrsOf.getD []).get? i = some a → a.encrypted = false →
        (c8out.attrsOf.getD []).get? i = some a)
    ∧ (∀ i ev, (c8out.eventsOf.getD []).get? i = some ev →
        ∃ ev2, (c8out.eventsOf.getD []).get? i = some ev2 ∧ ev2.ty = ev.ty ∧
          ∀ j a, ev.attributes.get? j = some a → a.encrypted = false →
            ev2.attributes.get? j = some a) :=
  encrypt_output_frame idCrypto c8out c8out ⟨[1], [2], [3]⟩ [0] none false
    c8msgs rfl rfl

/-! ## C7: the Err-result encryption scenario -/

/-- The concrete error value of the C7 scenario. -/
def boom_err : JValue :=
  .obj (.cons "generic_err" (.obj (.cons "msg" (.str "boom") .nil)) .nil)

/-- C7: encrypting an Err result whose error value is the boom generic
error, with exactly one reply parameter (the Err path passes
should_append_all_reply_params = false), wraps a base64 ciphertext that —
decrypted with the same derived key — is exactly the recipient contract
hash followed by the serialized JSON error value.  The inversion laws of
the external AES-SIV and base64 primitives are hypotheses, stated at the
point they are used. -/
theorem encrypt_output_err_scenario (c : Crypto) (p : ReplyParams)
    (secret_msg : SecretMessage) (contract_addr : Bytes)
    (im sig : Option Bytes) (is_ibc_output : Bool)
    (hb64 : c.b64decode (c.b64encode (c.encryptSiv
        (c.deriveKey secret_msg.nonce secret_msg.user_public_key)
        (p.recipient_contract_hash ++ strBytes (jsonSerial boom_err))))
      = c.encryptSiv (c.deriveKey secret_msg.nonce secret_msg.user_public_key)
        (p.recipient_contract_hash ++ strBytes (jsonSerial boom_err)))
    (hdec : c.decryptSiv (c.deriveKey secret_msg.nonce secret_msg.user_public_key)
        (c.encryptSiv (c.deriveKey secret_msg.nonce secret_msg.user_public_key)
          (p.recipient_contract_hash ++ strBytes (jsonSerial boom_err)))
      = p.recipient_contract_hash ++ strBytes (jsonSerial boom_err)) :
    ∃ ctB64 : String,
      encrypt_output c (.Err boom_err im sig) secret_msg contract_addr
          (some [p]) is_ibc_output
        = .ok (.Err (.obj (.cons "generic_err"
            (.obj (.cons "msg" (.str ctB64) .nil)) .nil)) im sig)
      ∧ c.decryptSiv (c.deriveKey secret_msg.nonce secret_msg.user_public_key)
          (c.b64decode ctB64)
        = p.recipient_contract_hash ++ strBytes (jsonSerial boom_err) := by
  refine ⟨encrypt_serializable c
    (c.deriveKey secret_msg.nonce secret_msg.user_public_key) boom_err
    (some [p]) false, rfl, ?_⟩
  have htrim : trimQuotes (jsonSerial boom_err) = jsonSerial boom_err := by decide
  simp only [encrypt_serializable, encrypt_preserialized_string, htrim,
    List.headD, Bool.false_eq_true, if_false, List.append_nil]
  rw [hb64, hdec]

/-- C7 witness: the scenario at a concrete reply parameter and key, with
the concrete primitive instantiation; decryption recovers hash-prefixed
serialized error bytes. -/
theorem encrypt_output_err_scenario_witness :
    ∃ ctB64 : String,
      encrypt_output idCrypto (.Err boom_err none none) ⟨[1], [2], [3]⟩ [0]
          (some [⟨1, [5, 6]⟩]) false
        = .ok (.Err (.obj (.cons "generic_err"
            (.obj (.cons "msg" (.str ctB64) .nil)) .nil)) none none)
      ∧ idCrypto.decryptSiv (idCrypto.deriveKey [1] [2]) (idCrypto.b64decode ctB64)
        = (⟨1, [5, 6]⟩ : ReplyParams).recipient_contract_hash
            ++ strBytes (jsonSerial boom_err) :=
  encrypt_output_err_scenario idCrypto ⟨1, [5, 6]⟩ ⟨[1], [2], [3]⟩ [0]
    none none false (by decide) (by decide)

/-! ## C2: what the sub-message callback signature actually covers -/

/-- The callback signature slot of a retrieved sub-message's Wasm
instruction, `none` for non-Wasm instructions. -/
def submsgCallbackSig (s2 : SubMsg) : Option Bytes :=
  match s2.msg with
  | .Wasm w2 => w2.callbackSig
  | .Other _ => none

/-- Success of the signature loop determines every element: each input
sub-message signs successfully and lands at its own index. -/
theorem callback_sig_submsgs_loop_get? (c : Crypto) (contract_addr : Bytes) :
    ∀ (xs ys : List SubMsg),
      callback_sig_submsgs_loop c contract_addr xs = .ok ys →
      ∀ i x, xs.get? i = some x →
        ∃ y, callback_sig_one_submsg c contract_addr x = .ok y ∧
          ys.get? i = some y := by
  intro xs
  induction xs with
  | nil => intro ys _ i x hx; simp at hx
  | cons a as ih =>
      intro ys h i x hx
      simp only [callback_sig_submsgs_loop] at h
      cases hfa : callback_sig_one_submsg c contract_addr a with
      | error e => rw [hfa] at h; simp at h
      | ok s2 =>
          rw [hfa] at h
          cases hrest : callback_sig_submsgs_loop c contract_addr as with
          | error e => rw [hrest] at h; simp at h
          | ok rest2 =>
              rw [hrest] at h
              simp only [Except.ok.injEq] at h
              subst h
              cases i with
              | zero =>
                  obtain rfl : a = x := by simpa using hx
                  exact ⟨s2, hfa, rfl⟩
              | succ n =>
                  obtain ⟨y, hy1, hy2⟩ := ih rest2 hrest n x (by simpa using hx)
                  exact ⟨y, hy1, by simpa using hy2⟩

/-- Replacing the callback signature leaves that new signature in place. -/
theorem WasmMsg.callbackSig_withCallbackSig (w : WasmMsg) (cs : Option Bytes) :
    (w.withCallbackSig cs).callbackSig = cs := by cases w <;> rfl

/-- C2 (amended): for every Wasm sub-message of an output owning
sub-messages, after the signature stage succeeds the attached callback_sig
is digest(callback_secret ‖ ciphertext ‖ serialize(funds)) where ciphertext
is the finalized payload with its leading 64-byte nonce-and-ephemeral-key
header stripped (`SecretMessage::from_slice(...).msg`) — not the whole
payload as placed on the wire. -/
theorem callback_sig_over_ciphertext (c : Crypto) (output out2 : RawWasmOutput)
    (contract_addr : Bytes) (sub_msgs : List SubMsg) (i : Nat) (s : SubMsg)
    (w : WasmMsg)
    (hs : output.submsgs = some sub_msgs)
    (hres : create_callback_sig_for_submsgs c output contract_addr = .ok out2)
    (hget : sub_msgs.get? i = some s) (hw : s.msg = .Wasm w) :
    ((out2.submsgs.getD []).get? i).map submsgCallbackSig
      = some (some (c.digest (c.callbackSecret ++ w.msgBytes.drop 64
          ++ serializeCoins (to_v010_coins w.fundsOf)))) := by
  have main : ∀ (msgs2 : List SubMsg),
      callback_sig_submsgs_loop c contract_addr sub_msgs = .ok msgs2 →
      (msgs2.get? i).map submsgCallbackSig
        = some (some (c.digest (c.callbackSecret ++ w.msgBytes.drop 64
            ++ serializeCoins (to_v010_coins w.fundsOf)))) := by
    intro msgs2 hloop
    obtain ⟨y, hy1, hy2⟩ :=
      callback_sig_submsgs_loop_get? c contract_addr sub_msgs msgs2 hloop i s hget
    rw [hy2, Option.map_some']
    simp only [callback_sig_one_submsg, hw] at hy1
    cases hparse : SecretMessage.from_slice w.msgBytes with
    | error e => rw [hparse] at hy1; simp at hy1
    | ok parsed =>
        rw [hparse] at hy1
        simp only [Except.ok.injEq] at hy1
        have hpm : parsed.msg = w.msgBytes.drop 64 := by
          simp only [SecretMessage.from_slice] at hparse
          split at hparse
          · simp at hparse
          · obtain rfl : _ = parsed := by simpa using hparse
            rfl
        subst hy1
        simp [submsgCallbackSig, WasmMsg.callbackSig_withCallbackSig, hpm,
          create_callback_signature]
  cases output with
  | OkV1 ok sig mid =>
      simp only [RawWasmOutput.submsgs, Option.some.injEq] at hs
      subst hs
      simp only [create_callback_sig_for_submsgs] at hres
      cases hloop : callback_sig_submsgs_loop c contract_addr ok.messages with
      | error e => rw [hloop] at hres; simp at hres
      | ok msgs2 =>
          rw [hloop] at hres
          simp only [Except.ok.injEq] at hres
          subst hres
          simpa [RawWasmOutput.submsgs] using main msgs2 hloop
  | OkIBCPacketReceive ok =>
      simp only [RawWasmOutput.submsgs, Option.some.injEq] at hs
      subst hs
      simp only [create_callback_sig_for_submsgs] at hres
      cases hloop : callback_sig_submsgs_loop c contract_addr ok.messages with
      | error e => rw [hloop] at hres; simp at hres
      | ok msgs2 =>
          rw [hloop] at hres
          simp only [Except.ok.injEq] at hres
          subst hres
          simpa [RawWasmOutput.submsgs] using main msgs2 hloop
  | Err e a b => exact absurd hs (by simp [RawWasmOutput.submsgs])
  | QueryOkV010 ok => exact absurd hs (by simp [RawWasmOutput.submsgs])
  | QueryOkV1 ok => exact absurd hs (by simp [RawWasmOutput.submsgs])
  | OkV010 ok a b => exact absurd hs (by simp [RawWasmOutput.submsgs])
  | OkIBCOpenChannel ok => exact absurd hs (by simp [RawWasmOutput.submsgs])

/-- The finalized wire payload of the C2 counterexample's sub-message:
32 nonce bytes, 32 ephemeral-key bytes, then a 1-byte ciphertext. -/
def c2payload : Bytes := List.replicate 32 0 ++ List.replicate 32 1 ++ [7]

/-- The C2 sub-message: a Wasm execute carrying the finalized payload. -/
def c2sub : SubMsg := ⟨1, .Wasm (.Execute "a" "ch" c2payload [] none), none, .Never, true⟩

/-- A concrete v1 output holding the C2 sub-message. -/
def c2out : RawWasmOutput := .OkV1 ⟨[c2sub], [], [], none⟩ none none

/-- C2 counterexample: with the concrete primitives, the callback_sig the
signature stage attaches is not digest(callback_secret ‖ final payload
bytes as placed on the wire ‖ serialize(funds)) — the signed bytes are only
the ciphertext portion, so the claim as stated fails on this input. -/
theorem callback_sig_full_payload_cex :
    ((create_callback_sig_for_submsgs idCrypto c2out [9]).toOption.map
        (fun o => ((o.submsgs.getD []).get? 0).map submsgCallbackSig))
      ≠ some (some (some (idCrypto.digest (idCrypto.callbackSecret ++ c2payload
          ++ serializeCoins (to_v010_coins []))))) := by decide

/-- The output of the signature stage on the C2 input: the signature over
the 1-byte ciphertext and the empty funds list. -/
def c2out2 : RawWasmOutput :=
  .OkV1 ⟨[⟨1, .Wasm (.Execute "a" "ch" c2payload []
    (some (idCrypto.digest (idCrypto.callbackSecret ++ c2payload.drop 64
      ++ serializeCoins (to_v010_coins []))))), none, .Never, true⟩],
    [], [], none⟩ none none

/-- C2 witness: on the concrete input the attached signature is the digest
over the ciphertext portion (payload minus the 64-byte header) and the
serialized funds. -/
theorem callback_sig_over_ciphertext_witness :
    ((c2out2.submsgs.getD []).get? 0).map submsgCallbackSig
      = some (some (idCrypto.digest (idCrypto.callbackSecret ++ c2payload.drop 64
          ++ serializeCoins (to_v010_coins
            ((WasmMsg.Execute "a" "ch" c2payload [] none).fundsOf))))) :=
  callback_sig_over_ciphertext idCrypto c2out c2out2 [9] [c2sub] 0 c2sub
    (.Execute "a" "ch" c2payload [] none) rfl rfl rfl rfl

/-! ## C1: which secret signs the adapted Reply -/

/-- The envelope-level internal reply signature of an output, for the
variants that carry one. -/
def RawWasmOutput.replySig : RawWasmOutput → Option Bytes
  | .Err _ _ sig => sig
  | .OkV010 _ sig _ => sig
  | .OkV1 _ sig _ => sig
  | _ => none

/-- The envelope-level internal message id of an output, for the variants
that carry one. -/
def RawWasmOutput.replyMsgId : RawWasmOutput → Option Bytes
  | .Err _ mid _ => mid
  | .OkV010 _ _ mid => mid
  | .OkV1 _ _ mid => mid
  | _ => none

/-- Whether the reply adapter rewrites this variant (Err, Ok v0.10 and
Ok v1 get adapted; queries and IBC outputs pass through). -/
def RawWasmOutput.adaptsAsReply : RawWasmOutput → Bool
  | .Err _ _ _ => true
  | .OkV010 _ _ _ => true
  | .OkV1 _ _ _ => true
  | _ => false

/-- C1 (amended): for every output adapted as a reply (non-empty reply
parameters, variant Err / Ok v0.10 / Ok v1), the internal_reply_enclave_sig
attached to the envelope is digest(callback_secret ‖ serialized Reply ‖
serialize(no funds)) — i.e. a callback-secret signature over the serialized
Reply object — and the sender address has no effect: the same envelope is
produced for every sender address. -/
theorem internal_reply_sig_uses_callback_secret (c : Crypto)
    (output out2 : RawWasmOutput) (p : ReplyParams) (rest : List ReplyParams)
    (secret_msg : SecretMessage) (sender_addr : Bytes)
    (hkind : output.adaptsAsReply = true)
    (hadapt : adapt_output_for_reply c output (some (p :: rest)) secret_msg
      sender_addr = .ok out2) :
    ∃ reply : Reply,
      out2.replyMsgId = some reply.id
      ∧ reply.was_orig_msg_encrypted = true
      ∧ reply.is_encrypted = true
      ∧ out2.replySig = some (c.digest (c.callbackSecret
          ++ serialize_reply c reply ++ serializeCoins []))
      ∧ ∀ other_addr : Bytes,
          adapt_output_for_reply c output (some (p :: rest)) secret_msg
            other_addr = .ok out2 := by
  cases output with
  | Err e mid sg =>
      replace hadapt := Except.ok.inj hadapt
      subst hadapt
      exact ⟨⟨_, _, true, true⟩, rfl, rfl, rfl, rfl, fun other => rfl⟩
  | OkV010 ok sg mid =>
      replace hadapt := Except.ok.inj hadapt
      subst hadapt
      exact ⟨⟨_, _, true, true⟩, rfl, rfl, rfl, rfl, fun other => rfl⟩
  | OkV1 ok sg mid =>
      replace hadapt := Except.ok.inj hadapt
      subst hadapt
      exact ⟨⟨_, _, true, true⟩, rfl, rfl, rfl, rfl, fun other => rfl⟩
  | QueryOkV010 ok => simp [RawWasmOutput.adaptsAsReply] at hkind
  | QueryOkV1 ok => simp [RawWasmOutput.adaptsAsReply] at hkind
  | OkIBCPacketReceive ok => simp [RawWasmOutput.adaptsAsReply] at hkind
  | OkIBCOpenChannel ok => simp [RawWasmOutput.adaptsAsReply] at hkind

/-- A concrete v1 output answering an ancestor, used by the C1
counterexample and witness. -/
def c1out : RawWasmOutput := .OkV1 ⟨[], [], [], none⟩ none none

/-- The concrete reply parameter of the C1 scenario. -/
def c1p : ReplyParams := ⟨3, [8]⟩

/-- The concrete inbound secret message of the C1 scenario. -/
def c1secret : SecretMessage := ⟨[1], [2], [3]⟩

/-- The Reply object the adapter builds on the C1 scenario. -/
def c1reply : Reply :=
  ⟨idCrypto.b64decode (encrypt_preserialized_string idCrypto
     (idCrypto.deriveKey [1] [2]) "3" (some [c1p]) true),
   .Ok ⟨[], none⟩, true, true⟩

/-- C1 counterexample: on a concrete adapted output, the
internal_reply_enclave_sig is identical for two different sender addresses
and equals the callback-secret digest of the serialized Reply — so it is
not a signature under a sender-address-bound secret distinct from the
callback secret, contradicting the claim as stated. -/
theorem internal_reply_sig_addr_bound_cex :
    adapt_output_for_reply idCrypto c1out (some [c1p]) c1secret [1]
      = adapt_output_for_reply idCrypto c1out (some [c1p]) c1secret [2]
    ∧ ((adapt_output_for_reply idCrypto c1out (some [c1p]) c1secret [1]).toOption.map
          RawWasmOutput.replySig)
      = some (some (idCrypto.digest (idCrypto.callbackSecret
          ++ serialize_reply idCrypto c1reply ++ serializeCoins []))) :=
  ⟨rfl, rfl⟩

/-- The adapter's result on the C1 scenario. -/
def c1out2 : RawWasmOutput :=
  .OkV1 ⟨[], [], [], none⟩
    (some (idCrypto.digest (idCrypto.callbackSecret
      ++ serialize_reply idCrypto c1reply ++ serializeCoins [])))
    (some c1reply.id)

/-- C1 witness: the amended statement at the concrete scenario. -/
theorem internal_reply_sig_uses_callback_secret_witness :
    ∃ reply : Reply,
      c1out2.replyMsgId = some reply.id
      ∧ reply.was_orig_msg_encrypted = true
      ∧ reply.is_encrypted = true
      ∧ c1out2.replySig = some (idCrypto.digest (idCrypto.callbackSecret
          ++ serialize_reply idCrypto reply ++ serializeCoins []))
      ∧ ∀ other_addr : Bytes,
          adapt_output_for_reply idCrypto c1out (some (c1p :: [])) c1secret
            other_addr = .ok c1out2 :=
  internal_reply_sig_uses_callback_secret idCrypto c1out c1out2 c1p []
    c1secret [4] rfl rfl
